import Mathlib

/-!
Shallow embedding of the langport worker core:
`prepare_logits_processor` and `batch_generation` from
`langport/core/generation_worker.py`, and the queue, channel and lifecycle
operations of `BaseModelWorker` from `langport/core/base_worker.py`.
External collaborators (the transformers model, tokenizer and the
transformers logits-processor numerics, the asyncio event loop) are
parameters of the embedding, as the spec treats them as out of scope.
-/

namespace Langport

/-- Token ids produced by the tokenizer. -/
abbrev Token := Nat

/-- One row of next-token scores: one rational score per vocabulary id
(floats are modelled as rationals). -/
abbrev Logits := List ℚ

/-- Result events of the worker protocol (`BaseWorkerResult` /
`GenerationWorkerResult`): `data` carries the decoded-text snapshot and the
usage counters, `done` and `error` are terminal. -/
inductive WorkerResult where
  | data (task_id : String) (text : String) (prompt_tokens : Nat)
      (total_tokens : Nat) (completion_tokens : Nat)
  | done (task_id : String)
  | error (task_id : String) (message : String)
  deriving DecidableEq, Repr

/-- Whether an event is terminal (`done` or `error`). -/
def WorkerResult.isTerminal : WorkerResult → Bool
  | .done _ => true
  | .error _ _ => true
  | _ => false

/-- Whether an event is an `error` event. -/
def WorkerResult.isError : WorkerResult → Bool
  | .error _ _ => true
  | _ => false

/-- One generation request (`GenerationTask`): sampling parameters are
rationals, `top_k` is a (signed, as in Python) integer. -/
structure GenerationTask where
  task_id : String
  prompt : String
  max_new_tokens : Nat
  temperature : ℚ
  repetition_penalty : ℚ
  top_p : ℚ
  top_k : Int
  deriving DecidableEq, Repr

instance : Inhabited GenerationTask := ⟨⟨"", "", 0, 1, 1, 1, 0⟩⟩

/-- The four transformers-library logits processors the worker can put in a
chain, each carrying the parameter it was constructed with. -/
inductive LogitsProc where
  | temperatureWarp (t : ℚ)
  | repetitionPenalty (p : ℚ)
  | topPWarp (p : ℚ)
  | topKWarp (k : Int)
  deriving DecidableEq, Repr

/-- `prepare_logits_processor` from `generation_worker.py`: builds the chain
in the fixed order temperature, repetition penalty, top-p, top-k, each under
the guard the source uses (`temperature >= 1e-5 and temperature != 1.0`,
`repetition_penalty > 1.0`, `1e-8 <= top_p < 1.0`, `top_k > 0`). -/
def prepare_logits_processor (temperature repetition_penalty top_p : ℚ)
    (top_k : Int) : List LogitsProc :=
  (if mkRat 1 100000 ≤ temperature ∧ temperature ≠ 1 then
      [LogitsProc.temperatureWarp temperature]
    else [])
    ++ (if 1 < repetition_penalty then
          [LogitsProc.repetitionPenalty repetition_penalty]
        else [])
    ++ (if mkRat 1 100000000 ≤ top_p ∧ top_p < 1 then [LogitsProc.topPWarp top_p]
        else [])
    ++ (if 0 < top_k then [LogitsProc.topKWarp top_k] else [])

/-- Rank of a processor kind in the fixed chain order. -/
def procRank : LogitsProc → Nat
  | .temperatureWarp _ => 0
  | .repetitionPenalty _ => 1
  | .topPWarp _ => 2
  | .topKWarp _ => 3

/-- External tokenizer contract: encoding of one prompt to ids, the padding
id used by `padding="longest"`, the end-of-sequence id, and decoding. -/
structure Tokenizer where
  encodeOne : String → List Token
  pad_token_id : Token
  eos_token_id : Token
  decode : List Token → String

/-- Numeric semantics of one transformers-library logits processor: given
the optional context ids (the second call argument in the source) and the
batch score matrix, produce the new score matrix.  The processors live in
the external `transformers` library, so their numerics are a parameter. -/
abbrev ProcSem := LogitsProc → Option (List Token) → List Logits → List Logits

/-- `LogitsProcessorList.__call__`: apply the chain left to right. -/
def applyChain (sem : ProcSem) (chain : List LogitsProc)
    (ctx : Option (List Token)) (scores : List Logits) : List Logits :=
  chain.foldl (fun sc p => sem p ctx sc) scores

/-- Index of the first maximal score, accumulator form. -/
def argmaxAux : List ℚ → Nat → Nat → ℚ → Nat
  | [], _, best, _ => best
  | x :: rest, i, best, bestVal =>
    if bestVal < x then argmaxAux rest (i + 1) i x
    else argmaxAux rest (i + 1) best bestVal

/-- `torch.argmax` over one logits row: index of the first maximal score. -/
def argmax : Logits → Nat
  | [] => 0
  | x :: rest => argmaxAux rest 1 0 x

/-- Right padding to length `n` with the padding id (`padding="longest"`). -/
def padRight (pad : Token) (n : Nat) (ids : List Token) : List Token :=
  ids ++ List.replicate (n - ids.length) pad

/-- Minimum of a list of naturals (`min(length)` in the source). -/
def minList : List Nat → Nat
  | [] => 0
  | x :: xs => xs.foldl Nat.min x

/-- Maximum of a list of naturals (`max(...)` in the source). -/
def maxList : List Nat → Nat
  | [] => 0
  | x :: xs => xs.foldl Nat.max x

/-- Fixed data of one decoding pass of `batch_generation`: the external
processor numerics, the sampling draw (`torch.multinomial` over the softmax
of the scores, a random draw abstracted into a function), the model backend
(given the current context rows, the last-position logits matrix
`logits[:, -1, :]` - the encoder-decoder and decoder-only branches differ
only in how the external model produces it), the tokenizer, and the batch
setup computed before the step loop. -/
structure PassEnv where
  sem : ProcSem
  sample : Logits → Token
  model : List (List Token) → List Logits
  tok : Tokenizer
  stream_interval : Nat
  tasks : List GenerationTask
  chains : List (List LogitsProc)
  full_input_ids : List (List Token)
  lengths : List Nat
  max_new_tokens : Nat

/-- The logits row the source actually selects for task `i`: when the chain
is non-empty it applies the chain to the whole batch matrix and takes row
`[0]`; when the chain is empty it takes `logits[0, -1, :]`.  (The source
also contains the dead store `last_token_logits = logits[i][-1]`, which is
overwritten on both branches.) -/
def taskLogits (env : PassEnv) (logitsM : List Logits)
    (input_ids : List (List Token)) (i : Nat) : Logits :=
  let task := env.tasks.getD i default
  let chain := env.chains.getD i []
  if chain.isEmpty then logitsM.getD 0 []
  else
    let tmp : Option (List Token) :=
      if 1 < task.repetition_penalty then some (input_ids.getD i []) else none
    (applyChain env.sem chain tmp logitsM).getD 0 []

/-- Token selection for task `i`: greedy argmax when
`temperature < 1e-5 or top_p < 1e-8`, otherwise the sampling draw. -/
def chooseToken (env : PassEnv) (logitsM : List Logits)
    (input_ids : List (List Token)) (i : Nat) : Token :=
  let task := env.tasks.getD i default
  let lt := taskLogits env logitsM input_ids i
  if task.temperature < mkRat 1 100000 ∨ task.top_p < mkRat 1 100000000 then argmax lt
  else env.sample lt

/-- The id appended to the context for task `i` at the current absolute
position: the prompt catch-up override keeps the original prompt token while
`current_len < length[i]`, else the chosen token. -/
def appendedToken (env : PassEnv) (logitsM : List Logits)
    (input_ids : List (List Token)) (current_len i : Nat) : Token :=
  if current_len < env.lengths.getD i 0 then
    (env.full_input_ids.getD i []).getD current_len 0
  else chooseToken env logitsM input_ids i

/-- Inner per-task loop of one decoding step: for each index `i` in order,
choose the token, append it to `new_ids`, and emit the `data` event (when
`step % stream_interval == 0`, or `step == max_new_tokens - 1`, or the
chosen token is EOS) followed by the `done` event when the chosen token is
EOS.  The decoded text snapshot is `tokenizer.decode(new_ids)` exactly as in
the source, i.e. the ids appended so far in this step. -/
def stepTasks (env : PassEnv) (step current_len : Nat) (logitsM : List Logits)
    (input_ids : List (List Token)) :
    List Nat → List Token → List WorkerResult →
      List Token × List WorkerResult
  | [], new_ids, events => (new_ids, events)
  | i :: rest, new_ids, events =>
    let task := env.tasks.getD i default
    let token := chooseToken env logitsM input_ids i
    let appended :=
      if current_len < env.lengths.getD i 0 then
        (env.full_input_ids.getD i []).getD current_len 0
      else token
    let isStop : Bool := token = env.tok.eos_token_id
    let new_ids1 := new_ids ++ [appended]
    let dataEvents : List WorkerResult :=
      if step % env.stream_interval = 0 ∨ step = env.max_new_tokens - 1 ∨
          isStop = true then
        [WorkerResult.data task.task_id (env.tok.decode new_ids1)
          (env.lengths.getD i 0) (env.lengths.getD i 0 + step) step]
      else []
    let doneEvents : List WorkerResult :=
      if isStop = true then [WorkerResult.done task.task_id] else []
    stepTasks env step current_len logitsM input_ids rest new_ids1
      (events ++ dataEvents ++ doneEvents)

/-- One iteration of the step loop of `batch_generation`: run the model on
the current context, run the inner per-task loop, and append the chosen ids
to every context row (`torch.cat(..., dim=1)`). -/
def decodeStep (env : PassEnv) (step : Nat) (input_ids : List (List Token)) :
    List WorkerResult × List (List Token) :=
  let logitsM := env.model input_ids
  let current_len := (input_ids.headD []).length
  let r := stepTasks env step current_len logitsM input_ids
    (List.range env.tasks.length) [] []
  (r.2, List.zipWith (fun row tkn => row ++ [tkn]) input_ids r.1)

/-- `batch_generation` from `generation_worker.py`, returning both the event
stream (in yield order) and the final context rows.  Batch setup: per-task
chains via `prepare_logits_processor`, right padding to the longest prompt,
true lengths recorded, initial context truncated to the shortest true
length, `max_new_tokens` the maximum over the batch. -/
def batch_generation_full (sem : ProcSem) (sample : Logits → Token)
    (model : List (List Token) → List Logits) (tok : Tokenizer)
    (stream_interval : Nat) (tasks : List GenerationTask) :
    List WorkerResult × List (List Token) :=
  if tasks.isEmpty then ([], [])
  else
    let lengths := tasks.map (fun t => (tok.encodeOne t.prompt).length)
    let maxLen := maxList lengths
    let full_input_ids :=
      tasks.map (fun t => padRight tok.pad_token_id maxLen (tok.encodeOne t.prompt))
    let chains := tasks.map (fun t =>
      prepare_logits_processor t.temperature t.repetition_penalty t.top_p t.top_k)
    let max_new_tokens := maxList (tasks.map (fun t => t.max_new_tokens))
    let env : PassEnv :=
      ⟨sem, sample, model, tok, stream_interval, tasks, chains,
        full_input_ids, lengths, max_new_tokens⟩
    let init_ids := full_input_ids.map (fun row => row.take (minList lengths))
    (List.range max_new_tokens).foldl
      (fun acc step =>
        let r := decodeStep env step acc.2
        (acc.1 ++ r.1, r.2))
      ([], init_ids)

/-- The event stream yielded by `batch_generation`. -/
def batch_generation (sem : ProcSem) (sample : Logits → Token)
    (model : List (List Token) → List Logits) (tok : Tokenizer)
    (stream_interval : Nat) (tasks : List GenerationTask) :
    List WorkerResult :=
  (batch_generation_full sem sample model tok stream_interval tasks).1

/-- Loop body of `fetch_tasks`: pop from the queue front while
`len(task_batch) <= max_batch_size and len(task_queue) > 0`. -/
def fetchLoop {α : Type} (max_batch_size : Nat) (task_batch : List α) :
    List α → List α × List α
  | [] => (task_batch, [])
  | t :: rest =>
    if task_batch.length ≤ max_batch_size then
      fetchLoop max_batch_size (task_batch ++ [t]) rest
    else (task_batch, t :: rest)

/-- `fetch_tasks` from `base_worker.py`: returns the drained batch and the
remaining queue. -/
def fetch_tasks {α : Type} (max_batch_size : Nat) (task_queue : List α) :
    List α × List α :=
  fetchLoop max_batch_size [] task_queue

/-- Python dict lookup on an insertion-ordered association list. -/
def dictGet {α : Type} : List (String × α) → String → Option α
  | [], _ => none
  | (k, v) :: rest, key => if k = key then some v else dictGet rest key

/-- Python dict assignment: replace the binding in place, else append. -/
def dictSet {α : Type} : List (String × α) → String → α → List (String × α)
  | [], key, v => [(key, v)]
  | (k, w) :: rest, key, v =>
    if k = key then (key, v) :: rest else (k, w) :: dictSet rest key v

/-- Python dict deletion of one binding. -/
def dictDel {α : Type} : List (String × α) → String → List (String × α)
  | [], _ => []
  | (k, w) :: rest, key => if k = key then rest else (k, w) :: dictDel rest key

/-- `add_task` from `base_worker.py`: append the task to the queue and bind
`task_output[task.task_id]` to a fresh empty channel (overwriting any
existing channel for that id). -/
def add_task (task_queue : List GenerationTask)
    (task_output : List (String × List WorkerResult)) (task : GenerationTask) :
    List GenerationTask × List (String × List WorkerResult) :=
  (task_queue ++ [task], dictSet task_output task.task_id [])

/-- `push_task_result` from `base_worker.py`: append to the channel of the
given id; a missing channel is a `KeyError` in the source, modelled as
`none`. -/
def push_task_result (task_output : List (String × List WorkerResult))
    (task_id : String) (response : WorkerResult) :
    Option (List (String × List WorkerResult)) :=
  match dictGet task_output task_id with
  | none => none
  | some ch => some (dictSet task_output task_id (ch ++ [response]))

/-- Consumption loop of `fetch_task_result` over the eventual channel
content: pop events from the front; `done` breaks without yielding, `error`
is yielded then breaks, anything else is yielded.  Returns the yielded
events and whether a terminal event was reached. -/
def drainChannel : List WorkerResult → List WorkerResult × Bool
  | [] => ([], false)
  | WorkerResult.done _ :: _ => ([], true)
  | WorkerResult.error tid msg :: _ => ([WorkerResult.error tid msg], true)
  | e :: rest =>
    let r := drainChannel rest
    (e :: r.1, r.2)

/-- `fetch_task_result` from `base_worker.py`, modelled on the eventual
content of the channel of `task_id`: the polling loop is represented by
giving the function the whole list of events the channel eventually holds;
the result is the yielded events together with the channel map after the
`del` of the entry.  `none` models a missing channel (`KeyError`) or a
channel that never receives a terminal event (the source coroutine then
polls forever and never deletes the entry). -/
def fetch_task_result (task_output : List (String × List WorkerResult))
    (task_id : String) :
    Option (List WorkerResult × List (String × List WorkerResult)) :=
  match dictGet task_output task_id with
  | none => none
  | some ch =>
    let r := drainChannel ch
    if r.2 then some (r.1, dictDel task_output task_id) else none

/-- Modelled from the spec: the admission limiter (`model_semaphore`).  The
sources here contain only the reading side (`get_queue_length`); the
semaphore creation and the `acquire`/`release` bracketing of a decoding
pass are absent from them, so the asyncio-semaphore state and the
bracketing discipline are modelled from the spec: `value` free slots,
`holders` passes in flight (the spec `in_use`), `waiters` blocked
acquirers; a `release` is only ever issued by a holder. -/
structure AdmissionLimiter where
  value : Nat
  holders : Nat
  waiters : Nat
  deriving DecidableEq, Repr

/-- A fresh semaphore with `capacity` free slots. -/
def AdmissionLimiter.init (capacity : Nat) : AdmissionLimiter :=
  ⟨capacity, 0, 0⟩

/-- The two operations of the admission limiter. -/
inductive LimiterOp where
  | acquire
  | release
  deriving DecidableEq, Repr

/-- Modelled from the spec: one limiter operation.  `acquire` takes a free
slot or blocks as a waiter; `release` (issued by a holder) hands the slot
to a waiter when one is blocked, else frees the slot. -/
def limiterStep (s : AdmissionLimiter) : LimiterOp → AdmissionLimiter
  | .acquire =>
    if 0 < s.value then { s with value := s.value - 1, holders := s.holders + 1 }
    else { s with waiters := s.waiters + 1 }
  | .release =>
    if s.holders = 0 then s
    else if 0 < s.waiters then { s with waiters := s.waiters - 1 }
    else { s with value := s.value + 1, holders := s.holders - 1 }

/-- `get_queue_length` from `base_worker.py`:
`0` when `model_semaphore` is `None`, else
`limit_model_concurrency - semaphore._value + len(semaphore._waiters)`,
computed over the integers as the source does. -/
def get_queue_length (limit_model_concurrency : Nat)
    (model_semaphore : Option AdmissionLimiter) : ℤ :=
  match model_semaphore with
  | none => 0
  | some s => (limit_model_concurrency : ℤ) - s.value + s.waiters

/-- Externally observable actions of the worker lifecycle. -/
inductive WorkerAction where
  | installTimer (name : String)
  | cancelTimer (name : String)
  | registerCall
  | deregisterCall
  | setOnline (b : Bool)
  deriving DecidableEq, Repr

/-- Lifecycle state of `BaseModelWorker`: the `online` flag and the names of
the installed interval timers in insertion order. -/
structure WorkerState where
  online : Bool
  timers : List String
  deriving DecidableEq, Repr

/-- `add_timer` from `base_worker.py`: refuse when the name exists, else
install and start the timer. -/
def add_timer (s : WorkerState) (name : String) :
    WorkerState × Bool × List WorkerAction :=
  if name ∈ s.timers then (s, false, [])
  else ({ s with timers := s.timers ++ [name] }, true,
    [WorkerAction.installTimer name])

/-- `start` from `base_worker.py`: no-op when online, else install the
heartbeat timer, perform the registration call, then set `online`.  The
action trace records the order of the externally visible effects. -/
def start (s : WorkerState) : WorkerState × List WorkerAction :=
  if s.online then (s, [])
  else
    let r := add_timer s "heartbeat"
    ({ r.1 with online := true },
      r.2.2 ++ [WorkerAction.registerCall, WorkerAction.setOnline true])

/-- `stop` from `base_worker.py`: no-op when offline, else cancel every
installed timer (in map order), clear the timer map, perform the
deregistration call, then clear `online`. -/
def stop (s : WorkerState) : WorkerState × List WorkerAction :=
  if s.online then
    ({ s with timers := [], online := false },
      s.timers.map WorkerAction.cancelTimer ++
        [WorkerAction.deregisterCall, WorkerAction.setOnline false])
  else (s, [])

/-- Processor numerics that leave scores unchanged; usable wherever the
chain is empty, since no processor is ever applied there. -/
def trivSem : ProcSem := fun _ _ scores => scores

/-- A sampling draw that is never consulted by greedy tasks. -/
def trivSample : Logits → Token := fun _ => 0

/-- Tokenizer fixture for the two-task row-selection run: prompt "a" encodes
to `[1]`, anything else to `[2]`; EOS id 9 never occurs. -/
def tokC1 : Tokenizer :=
  ⟨fun s => if s = "a" then [1] else [2], 0, 9, fun _ => ""⟩

/-- Model fixture whose row 0 has its maximum at index 5 and row 1 at 6. -/
def modelC1 : List (List Token) → List Logits :=
  fun _ =>
    [[0, 0, 0, 0, 0, 1, 0, 0, 0, 0], [0, 0, 0, 0, 0, 0, 1, 0, 0, 0]]

/-- Greedy one-step task on prompt "a" (temperature 0, default sampling
parameters, so the processor chain is empty). -/
def taskC1A : GenerationTask := ⟨"A", "a", 1, 0, 1, 1, 0⟩

/-- Greedy one-step task on prompt "b". -/
def taskC1B : GenerationTask := ⟨"B", "b", 1, 0, 1, 1, 0⟩

/-- Tokenizer fixture for the EOS runs: every prompt encodes to `[5]`,
EOS id 7. -/
def tokC2 : Tokenizer := ⟨fun _ => [5], 0, 7, fun _ => ""⟩

/-- Model fixture: maximum at EOS id 7 on the one-token context of step 0,
and at the non-EOS id 3 afterwards. -/
def modelC2 : List (List Token) → List Logits :=
  fun ids =>
    if (ids.headD []).length = 1 then [[0, 0, 0, 0, 0, 0, 0, 1]]
    else [[0, 0, 0, 1, 0, 0, 0, 0]]

/-- Greedy two-step task used by the EOS runs. -/
def taskC2 : GenerationTask := ⟨"T", "p", 2, 0, 1, 1, 0⟩

/-- Model fixture whose maximum is always at the non-EOS id 3. -/
def modelC3 : List (List Token) → List Logits :=
  fun _ => [[0, 0, 0, 1, 0, 0, 0, 0]]

/-- Tokenizer fixture for the catch-up run: prompt "s" encodes to
`[1, 2, 3]`, anything else to `[4, 5, 6, 7, 8]`; padding id 0; EOS id 20
never occurs. -/
def tokC6 : Tokenizer :=
  ⟨fun s => if s = "s" then [1, 2, 3] else [4, 5, 6, 7, 8], 0, 20,
    fun _ => ""⟩

/-- Model fixture: maximum of row 0 at index 2 on the three-token context of
step 0 and at index 1 afterwards; row 1 is all zeros (it is never read). -/
def modelC6 : List (List Token) → List Logits :=
  fun ids =>
    if (ids.headD []).length = 3 then
      [[0, 0, 1, 0, 0, 0, 0, 0, 0], [0, 0, 0, 0, 0, 0, 0, 0, 0]]
    else
      [[0, 1, 0, 0, 0, 0, 0, 0, 0], [0, 0, 0, 0, 0, 0, 0, 0, 0]]

/-- Greedy two-step task whose prompt has true length 3. -/
def taskC6S : GenerationTask := ⟨"S", "s", 2, 0, 1, 1, 0⟩

/-- Greedy two-step task whose prompt has true length 5. -/
def taskC6L : GenerationTask := ⟨"L", "l", 2, 0, 1, 1, 0⟩

/-- Pass environment fixture for the catch-up witness: one task whose true
prompt length is 2, with a context row holding only its first prompt
token. -/
def envC6W : PassEnv :=
  ⟨trivSem, trivSample, fun _ => [], ⟨fun _ => [], 0, 99, fun _ => ""⟩, 1,
    [taskC2], [[]], [[5, 6]], [2], 1⟩

/-- The drain loop of `fetch_tasks` pops the front while the batch has at
most `mbs` elements, so it takes exactly `mbs + 1 - batch.length` more. -/
theorem fetchLoop_eq {α : Type} (mbs : Nat) :
    ∀ (task_queue task_batch : List α), task_batch.length ≤ mbs + 1 →
      fetchLoop mbs task_batch task_queue
        = (task_batch ++ task_queue.take (mbs + 1 - task_batch.length),
            task_queue.drop (mbs + 1 - task_batch.length)) := by
  intro task_queue
  induction task_queue with
  | nil =>
    intro b hb
    simp [fetchLoop]
  | cons t rest ih =>
    intro b hb
    simp only [fetchLoop]
    by_cases hlen : b.length ≤ mbs
    · rw [if_pos hlen, ih (b ++ [t]) (by simp; omega)]
      have h1 : mbs + 1 - b.length = (mbs + 1 - (b ++ [t]).length) + 1 := by
        simp
        omega
      rw [h1]
      simp
    · rw [if_neg hlen]
      have h0 : mbs + 1 - b.length = 0 := by omega
      simp [h0]

/-- C1 (code bug): in a two-task greedy batch the source selects the token
for every task from row 0 of the batch logits (`logits[0, -1, :]`, or row
`[0]` of the processed matrix), not from the own row of the task: here row
1 has its maximum at 6, yet both final contexts end in 5, the argmax of
row 0. -/
theorem C1_tokens_from_row_zero :
    (batch_generation_full trivSem trivSample modelC1 tokC1 1
          [taskC1A, taskC1B]).2
        = [[1, 5], [2, 5]] ∧
      argmax [0, 0, 0, 0, 0, 0, 1, 0, 0, 0] = 6 := by
  decide

/-- C2 (code bug): after the EOS token is chosen for a task at step 0, the
step loop keeps the task active (`is_stop` is recomputed every step), so the
stream of that task receives a further `data` event after its `done`
event. -/
theorem C2_data_after_done :
    batch_generation trivSem trivSample modelC2 tokC2 1 [taskC2]
      = [WorkerResult.data "T" "" 1 1 0, WorkerResult.done "T",
          WorkerResult.data "T" "" 1 2 1] := by
  decide

/-- C3 (code bug): with `max_new_tokens = 2` and no EOS ever chosen, the
stream contains no terminal `done` event at all, and the last `data` event
carries `completion_tokens = step = 1` (that is `N - 1`, not `N`) and
`total_tokens = prompt_tokens + 1`. -/
theorem C3_no_done_event :
    batch_generation trivSem trivSample modelC3 tokC2 2 [taskC2]
      = [WorkerResult.data "T" "" 1 1 0, WorkerResult.data "T" "" 1 2 1] := by
  decide

/-- C4 counterexample: `fetch_tasks` with `max_batch_size = 2` drains three
tasks from a five-task queue, so the batch is not bounded by
`max_batch_size`. -/
theorem C4_cex :
    (fetch_tasks 2 ([10, 11, 12, 13, 14] : List Nat)).1 = [10, 11, 12] ∧
      ¬((fetch_tasks 2 ([10, 11, 12, 13, 14] : List Nat)).1.length ≤ 2) := by
  decide

/-- C4 (amended): `fetch_tasks` removes and returns at most
`max_batch_size + 1` tasks from the front of the queue in arrival order:
it returns exactly the first `max_batch_size + 1` queued tasks (all of them
when fewer are queued, the empty batch on the empty queue) and leaves the
untaken suffix as the remaining queue. -/
theorem C4_amended {α : Type} (max_batch_size : Nat) (task_queue : List α) :
    fetch_tasks max_batch_size task_queue
      = (task_queue.take (max_batch_size + 1),
          task_queue.drop (max_batch_size + 1)) := by
  unfold fetch_tasks
  rw [fetchLoop_eq max_batch_size task_queue [] (by simp)]
  simp

/-- C5 counterexample: on a channel ending in `done`, the consumer yields
only the `data` events: no terminal event is delivered to the caller. -/
theorem C5_cex :
    fetch_task_result
          [("T", [WorkerResult.data "T" "x" 1 1 0, WorkerResult.done "T"])]
          "T"
        = some ([WorkerResult.data "T" "x" 1 1 0], []) ∧
      (([WorkerResult.data "T" "x" 1 1 0]).all
          fun e => !e.isTerminal) = true := by
  decide

/-- The drain loop yields the non-terminal prefix and stops at the first
terminal event, delivering it only when it is an `error`. -/
theorem drainChannel_eq (pre : List WorkerResult) (t : WorkerResult)
    (suf : List WorkerResult) (hpre : ∀ e ∈ pre, e.isTerminal = false)
    (ht : t.isTerminal = true) :
    drainChannel (pre ++ t :: suf)
      = (pre ++ (if t.isError = true then [t] else []), true) := by
  induction pre with
  | nil =>
    simp only [List.nil_append]
    cases t with
    | done tid => simp [drainChannel, WorkerResult.isError]
    | error tid msg => simp [drainChannel, WorkerResult.isError]
    | data a b c d e => simp [WorkerResult.isTerminal] at ht
  | cons e rest ih =>
    have he : e.isTerminal = false := hpre e (List.mem_cons_self e rest)
    have hrest : ∀ x ∈ rest, x.isTerminal = false := fun x hx =>
      hpre x (List.mem_cons_of_mem e hx)
    cases e with
    | data a b c d f =>
      simp only [List.cons_append, drainChannel, List.append_eq]
      rw [ih hrest]
    | done tid => simp [WorkerResult.isTerminal] at he
    | error tid msg => simp [WorkerResult.isTerminal] at he

/-- C5 (amended): for every channel whose eventual content has a first
terminal event, `fetch_task_result` yields the non-terminal prefix in
channel order and terminates at that first terminal event; the terminal
event itself is delivered to the caller only when it is an `error` (a
`done` terminal is consumed without being yielded), and the channel entry
is deleted after termination. -/
theorem C5_amended (task_output : List (String × List WorkerResult))
    (task_id : String) (pre : List WorkerResult) (t : WorkerResult)
    (suf : List WorkerResult)
    (hch : dictGet task_output task_id = some (pre ++ t :: suf))
    (hpre : ∀ e ∈ pre, e.isTerminal = false) (ht : t.isTerminal = true) :
    fetch_task_result task_output task_id
      = some (pre ++ (if t.isError = true then [t] else []),
          dictDel task_output task_id) := by
  unfold fetch_task_result
  rw [hch]
  dsimp only
  rw [drainChannel_eq pre t suf hpre ht]
  simp

/-- C5 witness: a concrete channel `[data, error]` yields both events and
the entry is deleted. -/
theorem C5_amended_witness :
    fetch_task_result
        [("T", [WorkerResult.data "T" "x" 1 1 0, WorkerResult.error "T" "m"])]
        "T"
      = some ([WorkerResult.data "T" "x" 1 1 0, WorkerResult.error "T" "m"],
          []) := by
  have h := C5_amended
    [("T", [WorkerResult.data "T" "x" 1 1 0, WorkerResult.error "T" "m"])]
    "T" [WorkerResult.data "T" "x" 1 1 0] (WorkerResult.error "T" "m") []
    (by decide) (by decide) (by decide)
  rw [h]
  decide

/-- C6 counterexample: in the greedy batch with true prompt lengths 3 and 5,
the first two ids appended for the shorter-prompt task (row 0) are the
greedy tokens `[2, 1]`, which reproduce neither its own prompt tokens nor
the padding of its row; the catch-up override applies to the longer-prompt
task (row 1), whose first two appended ids are its own prompt tokens 7
and 8. -/
theorem C6_cex :
    (batch_generation_full trivSem trivSample modelC6 tokC6 5
          [taskC6S, taskC6L]).2
        = [[1, 2, 3, 2, 1], [4, 5, 6, 7, 8]] ∧
      ([2, 1] : List Token) ≠ (tokC6.encodeOne "s").take 2 ∧
      ([2, 1] : List Token) ≠ [0, 0] := by
  decide

/-- The ids appended by the inner loop are, in index order, exactly the
per-task appended tokens. -/
theorem stepTasks_fst (env : PassEnv) (step current_len : Nat)
    (logitsM : List Logits) (input_ids : List (List Token)) :
    ∀ (idxs : List Nat) (acc : List Token) (events : List WorkerResult),
      (stepTasks env step current_len logitsM input_ids idxs acc events).1
        = acc ++ idxs.map (appendedToken env logitsM input_ids current_len) := by
  intro idxs
  induction idxs with
  | nil =>
    intro acc events
    simp [stepTasks]
  | cons i rest ih =>
    intro acc events
    simp only [stepTasks]
    rw [ih]
    simp [appendedToken]

/-- Indexing a row-wise append of one token per row. -/
theorem getD_zipWith_append (rows : List (List Token)) (ts : List Token)
    (i : Nat) (h1 : i < rows.length) (h2 : i < ts.length) :
    (List.zipWith (fun row tkn => row ++ [tkn]) rows ts).getD i []
      = rows.getD i [] ++ [ts.getD i 0] := by
  induction rows generalizing ts i with
  | nil => simp at h1
  | cons r rs ih =>
    cases ts with
    | nil => simp at h2
    | cons a as =>
      cases i with
      | zero => simp
      | succ n =>
        simp only [List.zipWith_cons_cons, List.getD_cons_succ]
        exact ih as n (by simpa using h1) (by simpa using h2)

/-- Indexing the map of a function over `List.range`. -/
theorem getD_map_range (f : Nat → Token) (n i : Nat) (h : i < n) :
    ((List.range n).map f).getD i 0 = f i := by
  rw [List.getD_eq_getElem?_getD, List.getElem?_map, List.getElem?_range h]
  rfl

/-- C6 (amended): in every decoding step of `batch_generation`, for every
task `i` of the batch, while the current absolute position
(`current_len`, the width of the context) is still within the true
(unpadded) prompt length of task `i`, the id appended to the context row of
task `i` is the original prompt token at that position, not the sampled or
greedy token; in the greedy two-task batch with prompt lengths 3 and 5 it
is therefore the longer-prompt task, not the shorter one, whose first two
appended positions exactly reproduce its own prompt tokens. -/
theorem C6_amended (env : PassEnv) (step : Nat)
    (input_ids : List (List Token)) (i : Nat)
    (hi : i < env.tasks.length)
    (hrows : input_ids.length = env.tasks.length)
    (hcatch : (input_ids.headD []).length < env.lengths.getD i 0) :
    (decodeStep env step input_ids).2.getD i []
      = input_ids.getD i []
        ++ [(env.full_input_ids.getD i []).getD (input_ids.headD []).length 0] := by
  unfold decodeStep
  simp only
  rw [stepTasks_fst env step ((input_ids.headD []).length)
      (env.model input_ids) input_ids (List.range env.tasks.length) [] []]
  rw [List.nil_append]
  rw [getD_zipWith_append input_ids _ i (by omega) (by simpa using hi)]
  rw [getD_map_range _ env.tasks.length i hi]
  unfold appendedToken
  rw [if_pos hcatch]

/-- C6 witness: a one-task environment whose prompt has true length 2, with
the context still one position short: the appended id is the second prompt
token 6, not a model token. -/
theorem C6_amended_witness :
    (decodeStep envC6W 0 [[5]]).2.getD 0 [] = [5, 6] := by
  have h := C6_amended envC6W 0 [[5]] 0 (by decide) (by decide) (by decide)
  rw [h]
  decide

/-- C7 counterexample: at temperature 2 the chain does contain the
temperature transform although 2 ≥ 1, so the transform is not restricted to
temperatures below 1. -/
theorem C7_cex :
    LogitsProc.temperatureWarp 2 ∈ prepare_logits_processor 2 1 1 0 ∧
      (1 : ℚ) ≤ 2 := by
  decide

/-- C7 (amended): the chain built by `prepare_logits_processor` contains
the temperature transform exactly when `temperature ≥ 1e-5` and
`temperature ≠ 1` (so it is never applied in greedy mode and never at
exactly 1, but it is applied for temperatures above 1), the
repetition-penalty transform exactly when `repetition_penalty > 1`, the
top-p transform exactly when `1e-8 ≤ top_p < 1`, the top-k transform
exactly when `top_k > 0`, and the chain is in the fixed order temperature,
repetition penalty, top-p, top-k. -/
theorem C7_amended (temperature repetition_penalty top_p : ℚ) (top_k : Int) :
    (LogitsProc.temperatureWarp temperature
        ∈ prepare_logits_processor temperature repetition_penalty top_p top_k
      ↔ mkRat 1 100000 ≤ temperature ∧ temperature ≠ 1) ∧
    (LogitsProc.repetitionPenalty repetition_penalty
        ∈ prepare_logits_processor temperature repetition_penalty top_p top_k
      ↔ 1 < repetition_penalty) ∧
    (LogitsProc.topPWarp top_p
        ∈ prepare_logits_processor temperature repetition_penalty top_p top_k
      ↔ mkRat 1 100000000 ≤ top_p ∧ top_p < 1) ∧
    (LogitsProc.topKWarp top_k
        ∈ prepare_logits_processor temperature repetition_penalty top_p top_k
      ↔ 0 < top_k) ∧
    List.Pairwise (fun a b => procRank a < procRank b)
      (prepare_logits_processor temperature repetition_penalty top_p top_k) := by
  unfold prepare_logits_processor
  split_ifs <;> simp_all [procRank] <;> try tauto

/-- Reachable limiter states keep `value + holders = capacity`. -/
theorem limiter_invariant (limit : Nat) :
    ∀ (ops : List LimiterOp) (s : AdmissionLimiter),
      s.value + s.holders = limit →
      (ops.foldl limiterStep s).value + (ops.foldl limiterStep s).holders
        = limit := by
  intro ops
  induction ops with
  | nil =>
    intro s h
    simpa using h
  | cons op rest ih =>
    intro s h
    rw [List.foldl_cons]
    apply ih
    cases op <;> simp only [limiterStep] <;> split_ifs <;> (try simp) <;> omega

/-- C8: for every sequence of acquire and release operations of the
admission limiter (modelled from the spec, since the bracketing is outside
the given sources), `get_queue_length` returns exactly
`in_use + waiters` - that is `capacity - (capacity - in_use) + waiters` as
the source computes it - and the result is never negative. -/
theorem C8_queue_length (limit : Nat) (ops : List LimiterOp) :
    get_queue_length limit
          (some (ops.foldl limiterStep (AdmissionLimiter.init limit)))
        = ((ops.foldl limiterStep (AdmissionLimiter.init limit)).holders : ℤ)
          + ((ops.foldl limiterStep (AdmissionLimiter.init limit)).waiters : ℤ) ∧
      0 ≤ get_queue_length limit
          (some (ops.foldl limiterStep (AdmissionLimiter.init limit))) := by
  have h := limiter_invariant limit ops (AdmissionLimiter.init limit)
    (by simp [AdmissionLimiter.init])
  simp only [get_queue_length]
  omega

/-- C9: from an offline state `start` installs the heartbeat timer once and
performs one registration call, in that order, before setting the online
flag, and a second `start` changes nothing and performs no action; from an
online state `stop` cancels all installed timers and performs one
deregistration call, in that order, before clearing the online flag, and a
second `stop` changes nothing and performs no action. -/
theorem C9_idempotent (s t : WorkerState)
    (hs : s.online = false) (hhb : "heartbeat" ∉ s.timers)
    (ht : t.online = true) :
    (start s).2 = [WorkerAction.installTimer "heartbeat",
        WorkerAction.registerCall, WorkerAction.setOnline true] ∧
      start (start s).1 = ((start s).1, []) ∧
      (stop t).2 = t.timers.map WorkerAction.cancelTimer ++
        [WorkerAction.deregisterCall, WorkerAction.setOnline false] ∧
      stop (stop t).1 = ((stop t).1, []) := by
  unfold start stop add_timer
  simp [hs, hhb, ht]

/-- C9 witness: a fresh offline worker and an online worker with one
installed timer. -/
theorem C9_idempotent_witness :
    (start ⟨false, []⟩).2 = [WorkerAction.installTimer "heartbeat",
        WorkerAction.registerCall, WorkerAction.setOnline true] ∧
      start (start ⟨false, []⟩).1 = ((start ⟨false, []⟩).1, []) ∧
      (stop ⟨true, ["x"]⟩).2
        = (WorkerState.mk true ["x"]).timers.map WorkerAction.cancelTimer ++
          [WorkerAction.deregisterCall, WorkerAction.setOnline false] ∧
      stop (stop ⟨true, ["x"]⟩).1 = ((stop ⟨true, ["x"]⟩).1, []) :=
  C9_idempotent ⟨false, []⟩ ⟨true, ["x"]⟩ rfl (by decide) rfl

/-- Assignment followed by lookup of the same key. -/
theorem dictGet_dictSet_self {α : Type} (m : List (String × α))
    (key : String) (v : α) :
    dictGet (dictSet m key v) key = some v := by
  induction m with
  | nil => simp [dictSet, dictGet]
  | cons kv rest ih =>
    obtain ⟨k, w⟩ := kv
    by_cases hk : k = key
    · simp [dictSet, dictGet, hk]
    · simp [dictSet, dictGet, hk, ih]

/-- C10: submitting a task whose `task_id` already has a result channel
replaces that channel by a fresh empty one (any queued events `evs` are
discarded) and appends the task to the queue again, so the queue holds it
at least twice when its first copy is still queued. -/
theorem C10_duplicate_submission (task_queue : List GenerationTask)
    (task_output : List (String × List WorkerResult)) (task : GenerationTask)
    (evs : List WorkerResult)
    (hdup : dictGet task_output task.task_id = some evs)
    (hq : task ∈ task_queue) :
    (add_task task_queue task_output task).1 = task_queue ++ [task] ∧
      dictGet (add_task task_queue task_output task).2 task.task_id
        = some [] ∧
      2 ≤ (task_queue ++ [task]).count task := by
  refine ⟨rfl, dictGet_dictSet_self task_output task.task_id [], ?_⟩
  have h1 : 0 < task_queue.count task := List.count_pos_iff.mpr hq
  have h2 : ([task] : List GenerationTask).count task = 1 := by simp
  rw [List.count_append]
  omega

/-- C10 witness: a duplicate submission of a concrete task over a channel
already holding one event. -/
theorem C10_duplicate_submission_witness :
    (add_task [taskC2] [("T", [WorkerResult.done "T"])] taskC2).1
        = [taskC2] ++ [taskC2] ∧
      dictGet (add_task [taskC2] [("T", [WorkerResult.done "T"])] taskC2).2
          "T"
        = some [] ∧
      2 ≤ ([taskC2] ++ [taskC2]).count taskC2 :=
  C10_duplicate_submission [taskC2] [("T", [WorkerResult.done "T"])] taskC2
    [WorkerResult.done "T"] (by decide) (by decide)

end Langport
